import Mathlib

/-!
Verification of the FastMoss → Supabase catalog synchronization pipeline
(`sync.py`, `fastmoss_client.py`, `config.py`) against its specification.

The Python source is shallowly embedded: raw upstream records are modelled
as association lists of JSON-like values, Python floats as rationals,
stateful network effects as explicit oracle functions together with call
traces, and raised exceptions as `Except` results.
-/

set_option autoImplicit false

namespace FastmossSync

/-- A JSON-like Python value as it occurs in raw upstream product records:
`None`, a string, an integer, a float (modelled exactly as a rational), or a
list.  Nested dictionaries do not occur in the fields the pipeline reads. -/
inductive Value where
  | vNone : Value
  | vStr : String → Value
  | vInt : Int → Value
  | vFloat : Rat → Value
  | vList : List Value → Value

mutual

/-- Boolean equality on `Value`. -/
def Value.beq : Value → Value → Bool
  | Value.vNone, Value.vNone => true
  | Value.vStr a, Value.vStr b => a == b
  | Value.vInt a, Value.vInt b => a == b
  | Value.vFloat a, Value.vFloat b => a == b
  | Value.vList a, Value.vList b => Value.beqList a b
  | _, _ => false

/-- Boolean equality on lists of `Value`. -/
def Value.beqList : List Value → List Value → Bool
  | [], [] => true
  | x :: xs, y :: ys => Value.beq x y && Value.beqList xs ys
  | _, _ => false

end

mutual

theorem Value.beq_iff : (a b : Value) → (Value.beq a b = true ↔ a = b)
  | Value.vNone, Value.vNone => by simp [Value.beq]
  | Value.vNone, Value.vStr _ => by simp [Value.beq]
  | Value.vNone, Value.vInt _ => by simp [Value.beq]
  | Value.vNone, Value.vFloat _ => by simp [Value.beq]
  | Value.vNone, Value.vList _ => by simp [Value.beq]
  | Value.vStr _, Value.vNone => by simp [Value.beq]
  | Value.vStr a, Value.vStr b => by simp [Value.beq]
  | Value.vStr _, Value.vInt _ => by simp [Value.beq]
  | Value.vStr _, Value.vFloat _ => by simp [Value.beq]
  | Value.vStr _, Value.vList _ => by simp [Value.beq]
  | Value.vInt _, Value.vNone => by simp [Value.beq]
  | Value.vInt _, Value.vStr _ => by simp [Value.beq]
  | Value.vInt a, Value.vInt b => by simp [Value.beq]
  | Value.vInt _, Value.vFloat _ => by simp [Value.beq]
  | Value.vInt _, Value.vList _ => by simp [Value.beq]
  | Value.vFloat _, Value.vNone => by simp [Value.beq]
  | Value.vFloat _, Value.vStr _ => by simp [Value.beq]
  | Value.vFloat _, Value.vInt _ => by simp [Value.beq]
  | Value.vFloat a, Value.vFloat b => by simp [Value.beq]
  | Value.vFloat _, Value.vList _ => by simp [Value.beq]
  | Value.vList _, Value.vNone => by simp [Value.beq]
  | Value.vList _, Value.vStr _ => by simp [Value.beq]
  | Value.vList _, Value.vInt _ => by simp [Value.beq]
  | Value.vList _, Value.vFloat _ => by simp [Value.beq]
  | Value.vList a, Value.vList b => by
    simp [Value.beq, Value.beqList_iff a b]

theorem Value.beqList_iff : (xs ys : List Value) → (Value.beqList xs ys = true ↔ xs = ys)
  | [], [] => by simp [Value.beqList]
  | [], _ :: _ => by simp [Value.beqList]
  | _ :: _, [] => by simp [Value.beqList]
  | x :: xs, y :: ys => by
    simp [Value.beqList, Value.beq_iff x y, Value.beqList_iff xs ys]

end

instance : DecidableEq Value := fun a b =>
  decidable_of_iff (Value.beq a b = true) (Value.beq_iff a b)

/-- A raw upstream product record: an untyped mapping from field name to
value, modelled as an association list (`dict` in the source). -/
def RawRecord : Type := List (String × Value)

instance : DecidableEq RawRecord := by
  unfold RawRecord
  infer_instance

/-- Python `d.get(k)` on a dict: the value of the first matching key, or
`None` when the key is absent. -/
def lookupD (p : RawRecord) (k : String) : Value :=
  match p.find? (fun kv => kv.1 == k) with
  | some kv => kv.2
  | none => Value.vNone

/-- Python truthiness on the modelled values: `None`, `""`, `0`, `0.0` and
`[]` are falsy, everything else is truthy. -/
def pyTruthy : Value → Bool
  | Value.vNone => false
  | Value.vStr s => !s.isEmpty
  | Value.vInt n => n != 0
  | Value.vFloat q => q != 0
  | Value.vList l => !l.isEmpty

/-- Python `a or b`: `a` when truthy, else `b`. -/
def pyOr (a b : Value) : Value :=
  if pyTruthy a then a else b

/-- Python `repr` of a value (approximate: numeric and list spellings are a
model; the pipeline never branches on them). -/
def pyRepr : Value → String
  | Value.vNone => "None"
  | Value.vStr s => "'" ++ s ++ "'"
  | Value.vInt n => toString n
  | Value.vFloat q => toString q
  | Value.vList _ => "[...]"

/-- Python `str(value)`.  String values are returned verbatim (the only case
any claim depends on); numeric and list spellings are a model. -/
def pyStr : Value → String
  | Value.vNone => "None"
  | Value.vStr s => s
  | Value.vInt n => toString n
  | Value.vFloat q => toString q
  | Value.vList l => "[" ++ String.intercalate ", " (l.map pyRepr) ++ "]"

/-- Python whitespace, as stripped by `str.strip()`. -/
def isPyWhitespace (c : Char) : Bool :=
  c == ' ' || c == '\t' || c == '\n' || c == '\r' ||
    c == Char.ofNat 11 || c == Char.ofNat 12

/-- Python `str.strip()`: remove leading and trailing whitespace. -/
def stripChars (cs : List Char) : List Char :=
  ((cs.dropWhile isPyWhitespace).reverse.dropWhile isPyWhitespace).reverse

/-- Python `str.strip()` packaged on strings. -/
def pyStrip (s : String) : String :=
  String.mk (stripChars s.data)

/-- Model of `value.replace("$", "").replace(",", "").strip()` (sync.py:157): the
cleaning applied to price-like strings before float conversion. -/
def pyCleanNumeric (s : String) : List Char :=
  stripChars ((s.data.filter (fun c => c != '$')).filter (fun c => c != ','))

/-- Python `str.lower()`, modelled for ASCII letters. -/
def pyLower (s : String) : String :=
  String.mk (s.data.map Char.toLower)

/-- Numeric value of a list of decimal digit characters. -/
def digitsVal (ds : List Char) : Nat :=
  ds.foldl (fun a c => a * 10 + (c.toNat - 48)) 0

/-- Parse the digit string after an exponent marker: optional sign followed by
a nonempty run of digits. -/
def parseExpDigits (cs : List Char) : Option Int :=
  match cs with
  | '+' :: t => if !t.isEmpty && t.all Char.isDigit then some (digitsVal t) else none
  | '-' :: t => if !t.isEmpty && t.all Char.isDigit then some (-(digitsVal t : Int)) else none
  | t => if !t.isEmpty && t.all Char.isDigit then some (digitsVal t) else none

/-- Parse an unsigned decimal mantissa `digits [. digits]` (at least one digit
overall); returns the digit value together with the number of fraction
digits. -/
def parseMantissa (cs : List Char) : Option (Nat × Nat) :=
  let ip := cs.takeWhile Char.isDigit
  match cs.drop ip.length with
  | [] => if ip.isEmpty then none else some (digitsVal ip, 0)
  | '.' :: rest2 =>
    let fp := rest2.takeWhile Char.isDigit
    if (rest2.drop fp.length).isEmpty && (!ip.isEmpty || !fp.isEmpty) then
      some (digitsVal (ip ++ fp), fp.length)
    else none
  | _ => none

/-- Multiply a rational by a signed power of ten. -/
def ratTimesPow10 (q : Rat) (e : Int) : Rat :=
  if 0 ≤ e then q * (10 : Rat) ^ e.toNat else q / (10 : Rat) ^ (-e).toNat

/-- Python `float(s)` on an already-stripped string, modelled for finite
decimal literals: optional sign, decimal mantissa, optional exponent.
(`inf`/`nan` spellings and digit-group underscores are outside the model;
no claim involves them.)  Returns `none` exactly when `float` would raise
`ValueError`. -/
def parseFloat (cs : List Char) : Option Rat :=
  let sgn : Rat := match cs with
    | '-' :: _ => -1
    | _ => 1
  let cs := match cs with
    | '+' :: t => t
    | '-' :: t => t
    | t => t
  let mant := cs.takeWhile (fun c => c != 'e' && c != 'E')
  match parseMantissa mant with
  | none => none
  | some mf =>
    match cs.drop mant.length with
    | [] => some (sgn * ratTimesPow10 (mf.1 : Rat) (-(mf.2 : Int)))
    | _ :: t =>
      match parseExpDigits t with
      | none => none
      | some e => some (sgn * ratTimesPow10 (mf.1 : Rat) (e - (mf.2 : Int)))

/-- Python `int(s)` on a string: surrounding whitespace stripped, optional
sign, then a nonempty run of decimal digits.  Returns `none` exactly when
`int` would raise `ValueError`. -/
def parseInt (s : String) : Option Int :=
  let cs := stripChars s.data
  let sgn : Int := match cs with
    | '-' :: _ => -1
    | _ => 1
  let cs := match cs with
    | '+' :: t => t
    | '-' :: t => t
    | t => t
  if !cs.isEmpty && cs.all Char.isDigit then some (sgn * digitsVal cs) else none

/-- Python `int(q)` on a float: truncation toward zero. -/
def truncRat (q : Rat) : Int :=
  if 0 ≤ q then ⌊q⌋ else ⌈q⌉

/-- Model of `safe_int` (sync.py:139-146): convert to `int`, returning the default on
`None` or on any conversion error. -/
def safe_int (value : Value) (dflt : Int) : Int :=
  match value with
  | Value.vNone => dflt
  | Value.vStr s => (parseInt s).getD dflt
  | Value.vInt n => n
  | Value.vFloat q => truncRat q
  | Value.vList _ => dflt

/-- Model of `safe_float` (sync.py:149-161): convert to `float`, returning the default
on `None` or any conversion error; strings have currency symbols (`$`) and
thousands separators (`,`) removed and are stripped first, an emptied string
yielding the default. -/
def safe_float (value : Value) (dflt : Rat) : Rat :=
  match value with
  | Value.vNone => dflt
  | Value.vStr s =>
    let cleaned := pyCleanNumeric s
    if cleaned.isEmpty then dflt else (parseFloat cleaned).getD dflt
  | Value.vInt n => (n : Rat)
  | Value.vFloat q => q
  | Value.vList _ => dflt

/-- Model of `safe_str` (sync.py:164-168): `str(value)`, with the default on `None`. -/
def safe_str (value : Value) (dflt : String) : String :=
  match value with
  | Value.vNone => dflt
  | v => pyStr v

/-- Model of `get_first_from_array` (sync.py:171-177): first element of a list (or the
default for an empty list or `None`), otherwise `str(value)`. -/
def get_first_from_array (value : Value) (dflt : String) : String :=
  match value with
  | Value.vNone => dflt
  | Value.vList [] => dflt
  | Value.vList (x :: _) => pyStr x
  | v => pyStr v

/-- The normalized product row written to the `fastmoss_products` table
(the dict built by `transform_product`, sync.py:201-225).  `last_synced_at`
is the wall-clock timestamp, passed in as the `now` parameter. -/
structure CanonicalRecord where
  product_id : String
  region : String
  title : String
  img : String
  price : Rat
  currency : String
  sold_count : Int
  day7_sold_count : Int
  day28_sold_count : Int
  sale_amount : Rat
  day7_sale_amount : Rat
  category_l1 : String
  category_l2 : String
  category_l3 : String
  category_l1_id : String
  shop_name : String
  shop_id : String
  product_rating : Rat
  review_count : Int
  relate_author_count : Int
  commission_rate : String
  detail_url : String
  last_synced_at : String
deriving DecidableEq

/-- Model of `transform_product` (sync.py:180-232): map one raw FastMoss product to the
Supabase schema.  Every field access goes through a defaulting accessor, so
the function is total — the source's `except`/`raise` path (sync.py:229-232)
is unreachable for the modelled value shapes, hence no `Except` in the
result type.  `now` stands for `datetime.now(timezone.utc).isoformat()`. -/
def transform_product (product : RawRecord) (region : String) (now : String) :
    CanonicalRecord :=
  -- sync.py:184-187: "crate" preferred over "commission_rate", kept as string
  let commission_rate :=
    pyOr (lookupD product "crate") (pyOr (lookupD product "commission_rate") (Value.vStr ""))
  let commission_rate := if commission_rate = Value.vNone then Value.vStr "" else commission_rate
  let commission_rate := pyStr commission_rate
  -- sync.py:190: "relate_author_count" preferred over "author_count"
  let author_count :=
    pyOr (lookupD product "relate_author_count") (pyOr (lookupD product "author_count") (Value.vInt 0))
  -- sync.py:193: "category_id" preferred over "category_l1_id"
  let category_l1_id :=
    pyOr (lookupD product "category_id") (pyOr (lookupD product "category_l1_id") (Value.vStr ""))
  -- sync.py:197-199: categories may be array-wrapped; take the first element
  let category_l1 :=
    get_first_from_array (pyOr (lookupD product "category_name_l1") (lookupD product "category_l1")) ""
  let category_l2 :=
    get_first_from_array (pyOr (lookupD product "category_name_l2") (lookupD product "category_l2")) ""
  let category_l3 :=
    get_first_from_array (pyOr (lookupD product "category_name_l3") (lookupD product "category_l3")) ""
  { product_id := safe_str (lookupD product "product_id") ""
    region := region
    title := safe_str (lookupD product "title") ""
    img := safe_str (lookupD product "img") ""
    price := safe_float (lookupD product "price") 0
    currency := safe_str (lookupD product "currency") "USD"
    sold_count := safe_int (lookupD product "sold_count") 0
    day7_sold_count := safe_int (lookupD product "day7_sold_count") 0
    day28_sold_count := safe_int (lookupD product "day28_sold_count") 0
    sale_amount := safe_float (lookupD product "sale_amount") 0
    day7_sale_amount := safe_float (lookupD product "day7_sale_amount") 0
    category_l1 := category_l1
    category_l2 := category_l2
    category_l3 := category_l3
    category_l1_id := safe_str category_l1_id ""
    shop_name := safe_str (lookupD product "shop_name") ""
    shop_id := safe_str (lookupD product "shop_id") ""
    product_rating := safe_float (lookupD product "product_rating") 0
    review_count := safe_int (lookupD product "review_count") 0
    relate_author_count := safe_int author_count 0
    commission_rate := commission_rate
    detail_url := safe_str (lookupD product "detail_url") ""
    last_synced_at := now }

/-! ### MD5 (RFC 1321), used by `get_image_filename` via `hashlib.md5` -/

/-- Reduce to a 32-bit word. -/
def w32 (n : Nat) : Nat := n % 4294967296

/-- Addition modulo `2^32`. -/
def wadd (a b : Nat) : Nat := (a + b) % 4294967296

/-- Bitwise complement on 32-bit words (argument assumed `< 2^32`). -/
def wnot (a : Nat) : Nat := Nat.xor a 4294967295

/-- Left rotation on 32-bit words (argument assumed `< 2^32`, `s ≤ 32`). -/
def rotl (x s : Nat) : Nat := ((x <<< s) ||| (x >>> (32 - s))) % 4294967296

/-- The MD5 sine-derived constant table `K[0..63]`. -/
def md5K : List Nat :=
  [0xd76aa478, 0xe8c7b756, 0x242070db, 0xc1bdceee,
   0xf57c0faf, 0x4787c62a, 0xa8304613, 0xfd469501,
   0x698098d8, 0x8b44f7af, 0xffff5bb1, 0x895cd7be,
   0x6b901122, 0xfd987193, 0xa679438e, 0x49b40821,
   0xf61e2562, 0xc040b340, 0x265e5a51, 0xe9b6c7aa,
   0xd62f105d, 0x02441453, 0xd8a1e681, 0xe7d3fbc8,
   0x21e1cde6, 0xc33707d6, 0xf4d50d87, 0x455a14ed,
   0xa9e3e905, 0xfcefa3f8, 0x676f02d9, 0x8d2a4c8a,
   0xfffa3942, 0x8771f681, 0x6d9d6122, 0xfde5380c,
   0xa4beea44, 0x4bdecfa9, 0xf6bb4b60, 0xbebfbc70,
   0x289b7ec6, 0xeaa127fa, 0xd4ef3085, 0x04881d05,
   0xd9d4d039, 0xe6db99e5, 0x1fa27cf8, 0xc4ac5665,
   0xf4292244, 0x432aff97, 0xab9423a7, 0xfc93a039,
   0x655b59c3, 0x8f0ccc92, 0xffeff47d, 0x85845dd1,
   0x6fa87e4f, 0xfe2ce6e0, 0xa3014314, 0x4e0811a1,
   0xf7537e82, 0xbd3af235, 0x2ad7d2bb, 0xeb86d391]

/-- The MD5 per-round shift table `S[0..63]`. -/
def md5S : List Nat :=
  [7, 12, 17, 22, 7, 12, 17, 22, 7, 12, 17, 22, 7, 12, 17, 22,
   5, 9, 14, 20, 5, 9, 14, 20, 5, 9, 14, 20, 5, 9, 14, 20,
   4, 11, 16, 23, 4, 11, 16, 23, 4, 11, 16, 23, 4, 11, 16, 23,
   6, 10, 15, 21, 6, 10, 15, 21, 6, 10, 15, 21, 6, 10, 15, 21]

/-- One MD5 operation: step `i` of the 64-step compression, over message
words `M`. -/
def md5Step (M : List Nat) (st : Nat × Nat × Nat × Nat) (i : Nat) :
    Nat × Nat × Nat × Nat :=
  let a := st.1
  let b := st.2.1
  let c := st.2.2.1
  let d := st.2.2.2
  let f :=
    if i < 16 then (b &&& c) ||| (wnot b &&& d)
    else if i < 32 then (d &&& b) ||| (wnot d &&& c)
    else if i < 48 then (b ^^^ c) ^^^ d
    else c ^^^ (b ||| wnot d)
  let g :=
    if i < 16 then i
    else if i < 32 then (5 * i + 1) % 16
    else if i < 48 then (3 * i + 5) % 16
    else (7 * i) % 16
  let tmp := rotl (wadd (wadd (wadd a f) (md5K.getD i 0)) (M.getD g 0)) (md5S.getD i 0)
  (d, wadd b tmp, b, c)

/-- Split a byte list into 32-bit little-endian words. -/
def bytesToWordsLE : List Nat → List Nat
  | b0 :: b1 :: b2 :: b3 :: rest =>
    (b0 + 256 * b1 + 65536 * b2 + 16777216 * b3) :: bytesToWordsLE rest
  | _ => []

/-- Compress one 64-byte chunk into the running MD5 state. -/
def md5Chunk (st : Nat × Nat × Nat × Nat) (chunk : List Nat) :
    Nat × Nat × Nat × Nat :=
  let M := bytesToWordsLE chunk
  let r := (List.range 64).foldl (md5Step M) st
  (wadd st.1 r.1, wadd st.2.1 r.2.1, wadd st.2.2.1 r.2.2.1, wadd st.2.2.2 r.2.2.2)

/-- Split a list into successive 64-element chunks.  The first argument is
structural-termination fuel, always instantiated with the list's length (one
chunk consumes at least one element, so the fuel never runs out). -/
def chunks64 : Nat → List Nat → List (List Nat)
  | _, [] => []
  | 0, _ => []
  | fuel + 1, l => l.take 64 :: chunks64 fuel (l.drop 64)

/-- MD5 padding: append `0x80`, zero bytes to reach 56 mod 64, then the
64-bit little-endian bit length of the original message. -/
def md5Pad (msg : List Nat) : List Nat :=
  let len := msg.length
  let zeros := (119 - len % 64) % 64
  msg ++ (128 :: List.replicate zeros 0)
    ++ ((List.range 8).map fun i => ((len * 8) >>> (8 * i)) &&& 255)

/-- Little-endian bytes of a 32-bit word. -/
def wordBytesLE (w : Nat) : List Nat :=
  [w &&& 255, (w >>> 8) &&& 255, (w >>> 16) &&& 255, (w >>> 24) &&& 255]

/-- MD5 digest of a byte sequence, as 16 bytes. -/
def md5Bytes (msg : List Nat) : List Nat :=
  let init : Nat × Nat × Nat × Nat := (0x67452301, 0xefcdab89, 0x98badcfe, 0x10325476)
  let padded := md5Pad msg
  let st := (chunks64 padded.length padded).foldl md5Chunk init
  wordBytesLE st.1 ++ wordBytesLE st.2.1 ++ wordBytesLE st.2.2.1 ++ wordBytesLE st.2.2.2

/-- Lowercase hex digit for `n < 16`. -/
def hexDigit (n : Nat) : Char :=
  if n < 10 then Char.ofNat (48 + n) else Char.ofNat (87 + n)

/-- Two-character lowercase hex spelling of a byte. -/
def byteHex (b : Nat) : List Char :=
  [hexDigit (b / 16), hexDigit (b % 16)]

/-- UTF-8 encoding of one character (Python `str.encode()`). -/
def utf8Char (c : Char) : List Nat :=
  let n := c.toNat
  if n < 128 then [n]
  else if n < 2048 then [192 ||| (n >>> 6), 128 ||| (n &&& 63)]
  else if n < 65536 then
    [224 ||| (n >>> 12), 128 ||| ((n >>> 6) &&& 63), 128 ||| (n &&& 63)]
  else
    [240 ||| (n >>> 18), 128 ||| ((n >>> 12) &&& 63),
     128 ||| ((n >>> 6) &&& 63), 128 ||| (n &&& 63)]

/-- UTF-8 bytes of a string (Python `str.encode()`). -/
def utf8Bytes (s : String) : List Nat :=
  (s.data.map utf8Char).flatten

/-- Model of `hashlib.md5(...).hexdigest()`: lowercase hex MD5 digest of the UTF-8
bytes of a string. -/
def md5hex (s : String) : String :=
  String.mk (((md5Bytes (utf8Bytes s)).map byteHex).flatten)

/-- Does `nd` occur as a prefix of `hay`? -/
def beginsWith : List Char → List Char → Bool
  | [], _ => true
  | _ :: _, [] => false
  | a :: as, b :: bs => a == b && beginsWith as bs

/-- Does the needle occur as a prefix of some suffix of the haystack? -/
def containsSubAux (nd : List Char) : List Char → Bool
  | [] => beginsWith nd []
  | c :: t => beginsWith nd (c :: t) || containsSubAux nd t

/-- Python `needle in hay` on strings: substring containment. -/
def containsSub (hay nd : String) : Bool :=
  containsSubAux nd.data hay.data

/-- Is `c` valid inside a URL scheme (after the leading letter)? -/
def isSchemeChar (c : Char) : Bool :=
  c.isAlphanum || c == '+' || c == '-' || c == '.'

/-- Strip a leading `scheme:` when the text before the first `:` is a valid
scheme name. -/
def stripScheme (cs : List Char) : List Char :=
  let before := cs.takeWhile (fun c => c != ':')
  if before.length < cs.length && !before.isEmpty &&
      (before.headD 'a').isAlpha && before.all isSchemeChar then
    cs.drop (before.length + 1)
  else cs

/-- Model of `urllib.parse.urlparse(url).path`, modelled for the common URL shapes the
pipeline sees: drop the fragment, an optional `scheme:`, an optional
`//netloc`, and the query; what remains is the path. -/
def urlParsePath (url : String) : String :=
  let cs := url.data.takeWhile (fun c => c != '#')
  let cs := stripScheme cs
  let cs :=
    if cs.take 2 = ['/', '/'] then
      (cs.drop 2).dropWhile (fun c => c != '/' && c != '?')
    else cs
  String.mk (cs.takeWhile (fun c => c != '?'))

/-- Model of `get_image_filename` (sync.py:118-136): destination storage key
`product_id + "_" + first 8 hex digits of MD5(original_url) + "." + ext`,
the extension guessed from the lowercased URL path and defaulting to
`"jpg"`. -/
def get_image_filename (product_id original_url : String) : String :=
  let url_hash := (md5hex original_url).take 8
  let path := pyLower (urlParsePath original_url)
  let ext :=
    if containsSub path ".png" then "png"
    else if containsSub path ".webp" then "webp"
    else if containsSub path ".gif" then "gif"
    else "jpg"
  product_id ++ "_" ++ url_hash ++ "." ++ ext

/-- Image bucket name in Supabase Storage (sync.py:23). -/
def IMAGE_BUCKET : String := "product-images"

/-- The network effects used by `process_product_image`, as oracles:
`download url` models `download_image` (sync.py:86-115), returning the bytes
and content type on success and `none` on any failure; `upload bucket path
data ctype` models `SupabaseClient.upload_image` (sync.py:52-83), returning
the public URL on success and `none` on any failure. -/
structure ImgEnv where
  download : String → Option (List Nat × String)
  upload : String → String → List Nat → String → Option String

/-- Model of `process_product_image` (sync.py:288-320): returns the resulting image
URL together with two observability flags recording whether a download and
an upload were attempted. -/
def process_product_image (env : ImgEnv) (product : CanonicalRecord) :
    String × Bool × Bool :=
  let original_url := product.img
  let product_id := product.product_id
  -- sync.py:297-298: nothing to do without a URL or an identity
  if original_url.isEmpty || product_id.isEmpty then (original_url, false, false)
  -- sync.py:300-302: skip if already a Supabase URL
  else if containsSub original_url "supabase" then (original_url, false, false)
  else
    match env.download original_url with
    | none => (original_url, true, false)
    | some dataCt =>
      let filename := get_image_filename product_id original_url
      match env.upload IMAGE_BUCKET filename dataCt.1 dataCt.2 with
      | some newUrl => (newUrl, true, true)
      | none => (original_url, true, true)

/-! ### Paged collection (`fetch_products_for_region_category`, sync.py:235-285) -/

/-- Model of `PAGE_SIZE` (config.py:19): the page size each upstream request asks for
(`pagesize` default of `FastMossClient.search_products`,
fastmoss_client.py:60). -/
def PAGE_SIZE : Nat := 50

/-- Model of `products_per_page` (sync.py:246): the page size hard-coded into the
collector's termination logic ("FastMoss Basic plan returns 5 per page"). -/
def products_per_page : Nat := 5

/-- The expected upstream JSON envelope `{code, data: {product_list | list:
[...], total}}` (fastmoss_client.py docstring; spec §6).  Either array field
may be absent, modelled with `Option`. -/
structure Envelope where
  code : Int
  product_list : Option (List RawRecord)
  list : Option (List RawRecord)
  total : Int

/-- Model of `response.get("data", dict()).get("product_list", list())` (sync.py:259): the
records the collector extracts from one envelope. -/
def extractRecords (e : Envelope) : List RawRecord :=
  e.product_list.getD []

/-- The collection loop (sync.py:251-282).  `pages p s` models
`client.search_products(region, category_l1, page=p)` issuing a request with
page size `s`; the result pairs the accumulated products with the trace of
`(page, pagesize)` requests issued.  `fuel` is a structural-termination
device, always instantiated with `pagesNeeded + 1 - page`, so `fuel = 0`
holds exactly when the loop condition `page ≤ pagesNeeded` fails and the
base case coincides with the loop exit. -/
def fetchGo (pages : Nat → Nat → Envelope) (limit pagesNeeded : Nat) :
    Nat → Nat → List RawRecord → List RawRecord × List (Nat × Nat)
  | 0, _, acc => (acc, [])
  | fuel + 1, page, acc =>
    if acc.length < limit ∧ page ≤ pagesNeeded then
      let env := pages page PAGE_SIZE
      let pp := extractRecords env
      -- sync.py:261-263: zero records → no more products available
      if pp.isEmpty then (acc, [(page, PAGE_SIZE)])
      -- sync.py:273-276: fewer than `products_per_page` → end of results
      else if pp.length < products_per_page then (acc ++ pp, [(page, PAGE_SIZE)])
      else
        let r := fetchGo pages limit pagesNeeded fuel (page + 1) (acc ++ pp)
        (r.1, (page, PAGE_SIZE) :: r.2)
    else (acc, [])

/-- Model of `fetch_products_for_region_category` (sync.py:235-285): paginate until
the target is reached, a page comes back short, or `pages_needed` pages have
been fetched; trim the result to `limit`.  The loop starts at page 1 with
fuel `pages_needed + 1 - 1 = pages_needed`. -/
def fetch_products (pages : Nat → Nat → Envelope) (limit : Nat) :
    List RawRecord × List (Nat × Nat) :=
  let pages_needed := (limit + products_per_page - 1) / products_per_page
  let r := fetchGo pages limit pages_needed pages_needed 1 []
  (r.1.take limit, r.2)

/-! ### Deduplication (sync.py:470-480) -/

/-- The raw identity a record is deduplicated by: `p.get("product_id")`. -/
def pidOf (p : RawRecord) : Value :=
  lookupD p "product_id"

/-- The dedup loop of `run_sync` (sync.py:472-478): keep a record when its
`product_id` is truthy and not yet seen. -/
def dedupeGo (seen : List Value) : List RawRecord → List RawRecord
  | [] => []
  | p :: rest =>
    if pyTruthy (pidOf p) ∧ pidOf p ∉ seen then
      p :: dedupeGo (pidOf p :: seen) rest
    else
      dedupeGo seen rest

/-- Deduplicate a partition's records by `product_id`, first occurrence
winning (sync.py:470-480). -/
def dedupe (l : List RawRecord) : List RawRecord :=
  dedupeGo [] l

/-! ### Batched upsert (`upsert_products`, sync.py:323-410) -/

/-- The successive batches `transformed[i:i+100]` of the chunk loop
`for i in range(0, len(transformed), batch_size)` (sync.py:390-394).  The
first argument is structural-termination fuel, always instantiated with the
list's length (each chunk consumes at least one element). -/
def chunksOf100 : Nat → List CanonicalRecord → List (List CanonicalRecord)
  | _, [] => []
  | 0, _ => []
  | fuel + 1, l => l.take 100 :: chunksOf100 fuel (l.drop 100)

/-- The body of the chunk loop (sync.py:393-404) over the list of batches.
`op batch` models `supabase.upsert("fastmoss_products", batch)`:
`Except.ok ()` when the write succeeds, `Except.error e` when it raises.
Returns the result surfaced to the caller (`total_upserted` on full success,
the first chunk error re-raised otherwise, aborting the remaining chunks),
together with the count of records committed by succeeded chunk writes —
rows no later failure removes, as the source issues no rollback — and the
number of chunk writes issued. -/
def upsertChunks (op : List CanonicalRecord → Except String Unit) :
    List (List CanonicalRecord) → Except String Nat × Nat × Nat
  | [] => (Except.ok 0, 0, 0)
  | batch :: rest =>
    match op batch with
    | Except.error e => (Except.error e, 0, 1)
    | Except.ok _ =>
      let r := upsertChunks op rest
      (match r.1 with
       | Except.ok n => Except.ok (batch.length + n)
       | Except.error e => Except.error e,
       batch.length + r.2.1, 1 + r.2.2)

/-- The chunked upsert loop of `upsert_products` (sync.py:388-406): upsert
in batches of 100, accumulating `total_upserted`, re-raising the first chunk
failure. -/
def upsertLoop (op : List CanonicalRecord → Except String Unit)
    (l : List CanonicalRecord) : Except String Nat × Nat × Nat :=
  upsertChunks op (chunksOf100 l.length l)

/-- Model of `upsert_products` (sync.py:323-410): transform the raw products, drop
those without a `product_id`, rewrite each `img` through the image
sub-pipeline, then upsert in chunks of 100.  The triple is as in
`upsertLoop`. -/
def upsert_products (op : List CanonicalRecord → Except String Unit) (env : ImgEnv)
    (products : List RawRecord) (region now : String) :
    Except String Nat × Nat × Nat :=
  if products.isEmpty then (Except.ok 0, 0, 0)
  else
    let transformed :=
      (products.map (fun p => transform_product p region now)).filter
        (fun t => !t.product_id.isEmpty)
    if transformed.isEmpty then (Except.ok 0, 0, 0)
    else
      let withImages :=
        transformed.map (fun t => { t with img := (process_product_image env t).1 })
      upsertLoop op withImages

/-! ### Orchestrator (`run_sync`, sync.py:413-504) -/

/-- The body of `run_sync` for one (already stripped, nonempty) region:
fetch every category inside its own `try`, recording fetch errors;
deduplicate; upsert inside its own `try`, recording the upsert error.
`fetchRC region category limit` models the whole
`fetch_products_for_region_category` call, `Except.error e` standing for a
raised exception.  Returns the region's contribution to `total_synced` and
its recorded error messages, in order. -/
def processRegion (cats : List String) (limitPerRegion : Nat)
    (fetchRC : String → String → Nat → Except String (List RawRecord))
    (op : List CanonicalRecord → Except String Unit) (env : ImgEnv) (now : String)
    (region : String) : Nat × List String :=
  let step := fun (acc : List RawRecord × List String) (category : String) =>
    let category := pyStrip category
    if category.isEmpty then acc
    else
      -- sync.py:452-453: distribute the region limit over the category list
      match fetchRC region category (limitPerRegion / cats.length) with
      | Except.ok ps => (acc.1 ++ ps, acc.2)
      | Except.error e =>
        (acc.1, acc.2 ++ ["Error fetching " ++ region ++ "/" ++ category ++ ": " ++ e])
  let collected := cats.foldl step ([], [])
  -- sync.py:470-480 (the emptiness guard is kept; `dedupe [] = []` anyway)
  let unique := if collected.1.isEmpty then collected.1 else dedupe collected.1
  if unique.isEmpty then (0, collected.2)
  else
    match (upsert_products op env unique region now).1 with
    | Except.ok n => (n, collected.2)
    | Except.error e => (0, collected.2 ++ ["Error upserting " ++ region ++ ": " ++ e])

/-- Model of `run_sync` (sync.py:413-504): process each configured region in turn,
accumulating `total_synced` and the error list, and report both. -/
def run_sync (regions cats : List String) (limitPerRegion : Nat)
    (fetchRC : String → String → Nat → Except String (List RawRecord))
    (op : List CanonicalRecord → Except String Unit) (env : ImgEnv) (now : String) :
    Nat × List String :=
  regions.foldl
    (fun acc region =>
      let region := pyStrip region
      if region.isEmpty then acc
      else
        let pr := processRegion cats limitPerRegion fetchRC op env now region
        (acc.1 + pr.1, acc.2 ++ pr.2))
    (0, [])

/-! ### Properties of `dedupe` -/

theorem dedupeGo_sublist (seen : List Value) (l : List RawRecord) :
    List.Sublist (dedupeGo seen l) l := by
  induction l generalizing seen with
  | nil => simp [dedupeGo]
  | cons p rest ih =>
    simp only [dedupeGo]
    split
    · exact List.Sublist.cons₂ p (ih _)
    · exact List.Sublist.cons p (ih seen)

theorem dedupeGo_mem (seen : List Value) (l : List RawRecord) (r : RawRecord)
    (h : r ∈ dedupeGo seen l) : pyTruthy (pidOf r) = true ∧ pidOf r ∉ seen := by
  induction l generalizing seen with
  | nil => simp [dedupeGo] at h
  | cons p rest ih =>
    simp only [dedupeGo] at h
    split at h
    · rename_i hc
      rcases List.mem_cons.mp h with h | h
      · subst h
        exact ⟨hc.1, hc.2⟩
      · have := ih _ h
        exact ⟨this.1, fun hin => this.2 (List.mem_cons_of_mem _ hin)⟩
    · exact ih seen h

theorem dedupeGo_pids_nodup (seen : List Value) (l : List RawRecord) :
    ((dedupeGo seen l).map pidOf).Nodup := by
  induction l generalizing seen with
  | nil => simp [dedupeGo]
  | cons p rest ih =>
    simp only [dedupeGo]
    split
    · simp only [List.map_cons, List.nodup_cons]
      constructor
      · intro hmem
        rcases List.mem_map.mp hmem with ⟨r, hr, hpid⟩
        exact (dedupeGo_mem _ _ _ hr).2 (hpid ▸ List.mem_cons_self _ _)
      · exact ih _
    · exact ih seen

theorem dedupeGo_of_clean (m : List RawRecord) :
    ∀ seen : List Value, (∀ r ∈ m, pyTruthy (pidOf r) = true) → (m.map pidOf).Nodup →
    (∀ r ∈ m, pidOf r ∉ seen) → dedupeGo seen m = m := by
  induction m with
  | nil => intro seen _ _ _; simp [dedupeGo]
  | cons p rest ih =>
    intro seen htr hnd hns
    have hc : pyTruthy (pidOf p) = true ∧ pidOf p ∉ seen :=
      ⟨htr p (List.mem_cons_self _ _), hns p (List.mem_cons_self _ _)⟩
    simp only [dedupeGo, if_pos hc]
    rw [List.map_cons, List.nodup_cons] at hnd
    have hnotin : pidOf p ∉ rest.map pidOf := hnd.1
    congr 1
    refine ih _ (fun r hr => htr r (List.mem_cons_of_mem _ hr)) hnd.2 ?_
    intro r hr
    intro hin
    rcases List.mem_cons.mp hin with h | h
    · exact hnotin (h ▸ List.mem_map_of_mem pidOf hr)
    · exact hns r (List.mem_cons_of_mem _ hr) h

theorem dedupe_idem (l : List RawRecord) : dedupe (dedupe l) = dedupe l := by
  unfold dedupe
  refine dedupeGo_of_clean _ []
    (fun r hr => (dedupeGo_mem _ _ _ hr).1) (dedupeGo_pids_nodup [] l) ?_
  intro r _ h
  simp at h

theorem dedupeGo_find (l : List RawRecord) :
    ∀ (seen : List Value) (v : Value), pyTruthy v = true → v ∉ seen →
    (dedupeGo seen l).find? (fun r => decide (pidOf r = v))
      = l.find? (fun r => decide (pidOf r = v)) := by
  induction l with
  | nil => intro seen v _ _; simp [dedupeGo]
  | cons p rest ih =>
    intro seen v hv hs
    by_cases hpv : pidOf p = v
    · have hc : pyTruthy (pidOf p) = true ∧ pidOf p ∉ seen := by
        rw [hpv]; exact ⟨hv, hs⟩
      simp only [dedupeGo, if_pos hc]
      rw [List.find?_cons_of_pos _ (by simp [hpv]), List.find?_cons_of_pos _ (by simp [hpv])]
    · simp only [dedupeGo]
      split
      · rw [List.find?_cons_of_neg _ (by simp [hpv]), List.find?_cons_of_neg _ (by simp [hpv])]
        refine ih _ v hv ?_
        intro hin
        rcases List.mem_cons.mp hin with h | h
        · exact hpv h.symm
        · exact hs h
      · rw [List.find?_cons_of_neg _ (by simp [hpv])]
        exact ih seen v hv hs

/-- Example records of the C4 claim: `{id:1,v:"a"}`, `{id:2}`, `{id:1,v:"b"}`. -/
def exR1 : RawRecord := [("product_id", Value.vInt 1), ("v", Value.vStr "a")]

/-- Second example record of the C4 claim. -/
def exR2 : RawRecord := [("product_id", Value.vInt 2)]

/-- Third example record of the C4 claim (duplicate identity of `exR1`). -/
def exR3 : RawRecord := [("product_id", Value.vInt 1), ("v", Value.vStr "b")]

/-- C4: `dedupe` (sync.py:470-480) is idempotent; it preserves the
input's relative order among retained records (its output is a sublist of
the input); every retained record has a truthy (in particular non-empty)
`product_id`, so records with an empty identity do not participate in the
output; for every truthy identity the record kept is exactly the first
occurrence in the input; and the claim's concrete example evaluates as
stated. -/
theorem c4_dedupe_idempotent_first_seen :
    (∀ x : List RawRecord,
      dedupe (dedupe x) = dedupe x ∧
      List.Sublist (dedupe x) x ∧
      (∀ r ∈ dedupe x, pyTruthy (pidOf r) = true) ∧
      (∀ v : Value, pyTruthy v = true →
        (dedupe x).find? (fun r => decide (pidOf r = v))
          = x.find? (fun r => decide (pidOf r = v)))) ∧
    dedupe [exR1, exR2, exR3] = [exR1, exR2] := by
  constructor
  · intro x
    refine ⟨dedupe_idem x, dedupeGo_sublist [] x,
      fun r hr => (dedupeGo_mem [] x r hr).1, ?_⟩
    intro v hv
    exact dedupeGo_find x [] v hv (by simp)
  · decide

/-- Witness for C4: the conditional parts of the theorem applied at the
concrete example input and a concrete identity. -/
theorem c4_dedupe_idempotent_first_seen_witness :
    pyTruthy (Value.vInt 1) = true ∧
    (dedupe [exR1, exR2, exR3]).find? (fun r => decide (pidOf r = Value.vInt 1))
      = [exR1, exR2, exR3].find? (fun r => decide (pidOf r = Value.vInt 1)) := by
  exact ⟨by decide,
    ((c4_dedupe_idempotent_first_seen.1 [exR1, exR2, exR3]).2.2.2 (Value.vInt 1)) (by decide)⟩


/-! ### Properties of the collection loop -/

theorem fetchGo_trace_bounds (pages : Nat → Nat → Envelope) (limit pn : Nat) :
    ∀ (fuel page : Nat) (acc : List RawRecord) (q s : Nat),
    (q, s) ∈ (fetchGo pages limit pn fuel page acc).2 →
    page ≤ q ∧ q ≤ pn ∧ s = PAGE_SIZE := by
  intro fuel
  induction fuel with
  | zero => intro page acc q s h; simp [fetchGo] at h
  | succ f ih =>
    intro page acc q s h
    rw [fetchGo] at h
    by_cases hc : acc.length < limit ∧ page ≤ pn
    · rw [if_pos hc] at h
      dsimp only at h
      split at h
      · simp only [List.mem_singleton, Prod.mk.injEq] at h
        exact ⟨by omega, by omega, h.2⟩
      · split at h
        · simp only [List.mem_singleton, Prod.mk.injEq] at h
          exact ⟨by omega, by omega, h.2⟩
        · rcases List.mem_cons.mp h with h | h
          · simp only [Prod.mk.injEq] at h
            exact ⟨by omega, by omega, h.2⟩
          · have r := ih (page + 1) _ q s h
            exact ⟨by omega, r.2.1, r.2.2⟩
    · rw [if_neg hc] at h
      simp at h

theorem fetchGo_short_last (pages : Nat → Nat → Envelope) (limit pn : Nat) :
    ∀ (fuel page : Nat) (acc : List RawRecord) (p ps q qs : Nat),
    (p, ps) ∈ (fetchGo pages limit pn fuel page acc).2 →
    (extractRecords (pages p PAGE_SIZE)).length < products_per_page →
    (q, qs) ∈ (fetchGo pages limit pn fuel page acc).2 → q ≤ p := by
  intro fuel
  induction fuel with
  | zero => intro page acc p ps q qs hp _ _; simp [fetchGo] at hp
  | succ f ih =>
    intro page acc p ps q qs hp hshort hq
    rw [fetchGo] at hp hq
    by_cases hc : acc.length < limit ∧ page ≤ pn
    · rw [if_pos hc] at hp hq
      dsimp only at hp hq
      by_cases he : (extractRecords (pages page PAGE_SIZE)).isEmpty
      · rw [if_pos he] at hp hq
        simp only [List.mem_singleton, Prod.mk.injEq] at hp hq
        omega
      · rw [if_neg he] at hp hq
        by_cases hl : (extractRecords (pages page PAGE_SIZE)).length < products_per_page
        · rw [if_pos hl] at hp hq
          simp only [List.mem_singleton, Prod.mk.injEq] at hp hq
          omega
        · rw [if_neg hl] at hp hq
          dsimp only at hp hq
          rcases List.mem_cons.mp hp with hp | hp
          · -- the head page would have to be short, contradicting `hl`
            simp only [Prod.mk.injEq] at hp
            rw [hp.1] at hshort
            omega
          · rcases List.mem_cons.mp hq with hq | hq
            · simp only [Prod.mk.injEq] at hq
              have := (fetchGo_trace_bounds pages limit pn f (page + 1) _ p ps hp).1
              omega
            · exact ih (page + 1) _ p ps q qs hp hshort hq
    · rw [if_neg hc] at hp
      simp at hp

theorem fetchGo_step (pages : Nat → Nat → Envelope) (limit pn fuel page : Nat)
    (acc : List RawRecord) (h1 : acc.length < limit) (h2 : page ≤ pn)
    (h3 : products_per_page ≤ (extractRecords (pages page PAGE_SIZE)).length) :
    (fetchGo pages limit pn (fuel + 1) page acc).2
      = (page, PAGE_SIZE)
        :: (fetchGo pages limit pn fuel (page + 1)
            (acc ++ extractRecords (pages page PAGE_SIZE))).2 := by
  rw [fetchGo]
  rw [if_pos (And.intro h1 h2)]
  dsimp only
  rw [if_neg (by
    simp only [List.isEmpty_iff]
    intro hnil
    rw [hnil] at h3
    simp [products_per_page] at h3)]
  rw [if_neg (by omega)]

theorem fetchGo_trace_self (pages : Nat → Nat → Envelope) (limit pn fuel page : Nat)
    (acc : List RawRecord) (h1 : acc.length < limit) (h2 : page ≤ pn) :
    (page, PAGE_SIZE) ∈ (fetchGo pages limit pn (fuel + 1) page acc).2 := by
  rw [fetchGo]
  rw [if_pos (And.intro h1 h2)]
  dsimp only
  split
  · simp
  · split
    · simp
    · simp

/-- Total number of records returned by pages `page, page+1, …, page+k-1`
(each requested with page size `PAGE_SIZE`). -/
def pageLens (pages : Nat → Nat → Envelope) (page : Nat) : Nat → Nat
  | 0 => 0
  | k + 1 => (extractRecords (pages page PAGE_SIZE)).length + pageLens pages (page + 1) k

theorem pageLens_lower (pages : Nat → Nat → Envelope) :
    ∀ (k page : Nat),
      (∀ q, page ≤ q → q < page + k →
        products_per_page ≤ (extractRecords (pages q PAGE_SIZE)).length) →
      products_per_page * k ≤ pageLens pages page k := by
  intro k
  induction k with
  | zero => intro page _; simp [pageLens]
  | succ n ih =>
    intro page h
    have h1 := h page le_rfl (by omega)
    have h2 := ih (page + 1) (fun q hq1 hq2 => h q (by omega) (by omega))
    simp only [pageLens]
    have : products_per_page * (n + 1) = products_per_page + products_per_page * n := by
      ring
    omega

theorem fetchGo_reach (pages : Nat → Nat → Envelope) (limit pn : Nat) :
    ∀ (k page : Nat) (acc : List RawRecord),
      (∀ q, page ≤ q → q < page + k →
        products_per_page ≤ (extractRecords (pages q PAGE_SIZE)).length) →
      acc.length + pageLens pages page k < limit →
      page + k ≤ pn →
      (page + k, PAGE_SIZE) ∈ (fetchGo pages limit pn (pn + 1 - page) page acc).2 := by
  intro k
  induction k with
  | zero =>
    intro page acc _ hsum hle
    have hfe : pn + 1 - page = (pn - page) + 1 := by omega
    rw [hfe]
    simpa using fetchGo_trace_self pages limit pn (pn - page) page acc
      (by simpa [pageLens] using hsum) (by omega)
  | succ n ih =>
    intro page acc h hsum hle
    simp only [pageLens] at hsum
    have h5 := h page le_rfl (by omega)
    have hfe : pn + 1 - page = (pn - page) + 1 := by omega
    rw [hfe]
    rw [fetchGo_step pages limit pn (pn - page) page acc (by omega) (by omega) h5]
    have hrec := ih (page + 1) (acc ++ extractRecords (pages page PAGE_SIZE))
      (fun q hq1 hq2 => h q (by omega) (by omega))
      (by simp only [List.length_append]; omega)
      (by omega)
    have hfe2 : pn + 1 - (page + 1) = pn - page := by omega
    rw [hfe2] at hrec
    have heq : page + (n + 1) = page + 1 + n := by omega
    rw [heq]
    exact List.mem_cons_of_mem _ hrec

/-- C3: For every page oracle and target count, the collector
(`fetch_products_for_region_category`, sync.py:235-285) returns at most
`limit` records (overshoot of the final page is trimmed), and as soon as a
fetched page carries fewer records than the nominal page size
(`products_per_page`, including the zero-records case), no later page is
fetched: every fetched page number is at most the short page's number —
in particular collection stops before `pagesNeeded` whenever the short page
comes earlier.  The nominal page size of the termination logic is the
hard-coded `products_per_page = 5`; see C9 for its mismatch with the
requested `PAGE_SIZE`. -/
theorem c3_collect_bounded_early_stop :
    ∀ (pages : Nat → Nat → Envelope) (limit : Nat),
      (fetch_products pages limit).1.length ≤ limit ∧
      (∀ p ps, (p, ps) ∈ (fetch_products pages limit).2 →
        (extractRecords (pages p PAGE_SIZE)).length < products_per_page →
        ∀ q qs, (q, qs) ∈ (fetch_products pages limit).2 → q ≤ p) := by
  intro pages limit
  constructor
  · exact List.length_take_le limit _
  · intro p ps hp hshort q qs hq
    exact fetchGo_short_last pages limit _ _ 1 [] p ps q qs hp hshort hq

/-- Oracle for the C3 witness: every page returns three records. -/
def pagesShort : Nat → Nat → Envelope :=
  fun _ _ => { code := 0, product_list := some [exR1, exR2, exR3], list := none, total := 3 }

/-- Witness for C3: with a page oracle returning three records per page and a
target of 12, page 1 is short, so every fetched page number is `≤ 1`, and at
most 12 records are returned. -/
theorem c3_collect_bounded_early_stop_witness :
    (fetch_products pagesShort 12).1.length ≤ 12 ∧
    (∀ q qs, (q, qs) ∈ (fetch_products pagesShort 12).2 → q ≤ 1) := by
  refine ⟨(c3_collect_bounded_early_stop pagesShort 12).1, ?_⟩
  exact (c3_collect_bounded_early_stop pagesShort 12).2 1 PAGE_SIZE (by decide) (by decide)

/-- C9: The collector's termination logic uses the hard-coded page size
`products_per_page = 5` (sync.py:246): it never requests a page number
beyond `pagesNeeded = ceil(limit / 5)`, while every request it issues asks
the upstream API for the configured `PAGE_SIZE = 50` records
(config.py:19, fastmoss_client.py:60).  Consequently, whenever the pages
fetched so far all returned at least 5 records (in particular between 5 and
49, i.e. short of the requested 50) and the accumulated record count is
still below the target, the next page is fetched. -/
theorem c9_termination_page_size_five :
    PAGE_SIZE = 50 ∧ products_per_page = 5 ∧
    ∀ (pages : Nat → Nat → Envelope) (limit : Nat),
      (∀ p ps, (p, ps) ∈ (fetch_products pages limit).2 →
        ps = PAGE_SIZE ∧ p ≤ (limit + products_per_page - 1) / products_per_page) ∧
      (∀ p : Nat,
        (∀ q, 1 ≤ q → q ≤ p →
          products_per_page ≤ (extractRecords (pages q PAGE_SIZE)).length) →
        pageLens pages 1 p < limit →
        (p + 1, PAGE_SIZE) ∈ (fetch_products pages limit).2) := by
  refine ⟨rfl, rfl, ?_⟩
  intro pages limit
  constructor
  · intro p ps hp
    have h := fetchGo_trace_bounds pages limit _ _ 1 [] p ps hp
    exact ⟨h.2.2, h.2.1⟩
  · intro p h hsum
    have h5p : products_per_page * p ≤ pageLens pages 1 p :=
      pageLens_lower pages p 1 (fun q hq1 hq2 => h q hq1 (by omega))
    have hpn : 1 + p ≤ (limit + products_per_page - 1) / products_per_page := by
      rw [Nat.le_div_iff_mul_le (by simp [products_per_page])]
      simp only [products_per_page] at h5p ⊢
      omega
    have hfe : (limit + products_per_page - 1) / products_per_page
        = (limit + products_per_page - 1) / products_per_page + 1 - 1 := by omega
    have hr := fetchGo_reach pages limit
      ((limit + products_per_page - 1) / products_per_page) p 1 []
      (fun q hq1 hq2 => h q hq1 (by omega))
      (by simpa using hsum) hpn
    have heq : 1 + p = p + 1 := by omega
    rw [heq] at hr
    have hfuel : (limit + products_per_page - 1) / products_per_page + 1 - 1
        = (limit + products_per_page - 1) / products_per_page := by omega
    rw [hfuel] at hr
    exact hr

/-- Oracle for the C9 witness: every page returns 30 records — more than the
termination page size 5 but short of the requested 50. -/
def pages30 : Nat → Nat → Envelope :=
  fun _ _ =>
    { code := 0
      product_list := some (List.replicate 30 exR1)
      list := none
      total := 999 }

/-- Witness for C9: with 30 records per page and a target of 100, page 1
falls short of the requested 50 yet page 2 is still fetched (again asking
for 50). -/
theorem c9_termination_page_size_five_witness :
    (2, PAGE_SIZE) ∈ (fetch_products pages30 100).2 := by
  have h := (c9_termination_page_size_five.2.2 pages30 100).2 1
  refine h ?_ (by decide)
  intro q h1 h2
  have hq : q = 1 := by omega
  rw [hq]
  decide

/-! ### Which envelope field the pipeline reads (C6) -/

theorem fetchGo_congr (pages pages2 : Nat → Nat → Envelope) (limit pn : Nat)
    (hpp : ∀ p s, extractRecords (pages p s) = extractRecords (pages2 p s)) :
    ∀ (fuel page : Nat) (acc : List RawRecord),
      fetchGo pages limit pn fuel page acc = fetchGo pages2 limit pn fuel page acc := by
  intro fuel
  induction fuel with
  | zero => intro page acc; rfl
  | succ f ih =>
    intro page acc
    rw [fetchGo, fetchGo]
    by_cases hc : acc.length < limit ∧ page ≤ pn
    · rw [if_pos hc, if_pos hc]
      dsimp only
      rw [hpp page PAGE_SIZE]
      split
      · rfl
      · split
        · rfl
        · rw [ih (page + 1) _]
    · rw [if_neg hc, if_neg hc]

/-- A record whose envelope carries it under the `list` field only. -/
def recC6 : RawRecord := [("product_id", Value.vStr "x"), ("title", Value.vStr "t")]

/-- Oracle for the C6 counterexample: a well-formed success envelope whose
record array sits under `list` (the field name the client itself reads for
logging, fastmoss_client.py:125), with `product_list` absent. -/
def pagesListOnly : Nat → Nat → Envelope :=
  fun _ _ => { code := 0, product_list := none, list := some [recC6], total := 1 }

/-- Counterexample to C6 as stated: an envelope carrying its records only in
the `list` field yields an empty collection — the record is visible in the
envelope but is not extracted, because sync.py:259 reads `product_list`
only. -/
theorem c6_counterexample :
    (pagesListOnly 1 PAGE_SIZE).list = some [recC6] ∧
    (fetch_products pagesListOnly 10).1 = [] ∧
    (fetch_products pagesListOnly 10).1 ≠ [recC6] := by
  refine ⟨rfl, by decide, by decide⟩

/-- C6, amended: The collector extracts records exclusively from the
`product_list` field of the envelope: its entire result (records and request
trace) is invariant under arbitrary changes to the `code`, `list` and
`total` fields (so a non-zero `code` is never treated as fatal), and a
response with non-zero `code` whose records sit in `product_list` still has
them collected.  Records carried only under `list` are not collected (see
the counterexample). -/
theorem c6_product_list_only_code_ignored :
    (∀ (pages pages2 : Nat → Nat → Envelope) (limit : Nat),
      (∀ p s, extractRecords (pages p s) = extractRecords (pages2 p s)) →
      fetch_products pages limit = fetch_products pages2 limit) ∧
    (∀ (r : RawRecord) (c total : Int), c ≠ 0 →
      (fetch_products (fun _ _ =>
        { code := c, product_list := some [r], list := none, total := total }) 1).1 = [r]) := by
  constructor
  · intro pages pages2 limit hpp
    unfold fetch_products
    dsimp only
    rw [fetchGo_congr pages pages2 limit _ hpp _ 1 []]
  · intro r c total _
    show (fetchGo _ 1 _ _ 1 []).1.take 1 = [r]
    norm_num [fetchGo, extractRecords, products_per_page]

/-- Oracle for the C6 witness: records under `product_list`, `code = 0`. -/
def pagesCodeZero : Nat → Nat → Envelope :=
  fun _ _ => { code := 0, product_list := some [recC6], list := none, total := 1 }

/-- Second oracle for the C6 witness: same `product_list`, but non-zero
code, a decoy `list` field and a different `total`. -/
def pagesCodeFive : Nat → Nat → Envelope :=
  fun _ _ => { code := 5, product_list := some [recC6], list := some [], total := 0 }

/-- Witness for C6 (amended): the two oracles above produce identical
collection results, and a non-zero-code envelope still has its
`product_list` records collected. -/
theorem c6_product_list_only_code_ignored_witness :
    fetch_products pagesCodeZero 10 = fetch_products pagesCodeFive 10 ∧
    (fetch_products (fun _ _ =>
      { code := 5, product_list := some [recC6], list := none, total := 3 }) 1).1 = [recC6] := by
  constructor
  · exact (c6_product_list_only_code_ignored.1 pagesCodeZero pagesCodeFive 10)
      (fun p s => rfl)
  · exact c6_product_list_only_code_ignored.2 recC6 5 3 (by decide)

/-! ### Normalization (C2, C8) -/

theorem transform_price_proj (product : RawRecord) (region now : String) :
    (transform_product product region now).price
      = safe_float (lookupD product "price") 0 := rfl

theorem transform_sold_proj (product : RawRecord) (region now : String) :
    (transform_product product region now).sold_count
      = safe_int (lookupD product "sold_count") 0 := rfl

theorem safe_float_str_fail (s : String) (d : Rat)
    (h : parseFloat (pyCleanNumeric s) = none) :
    safe_float (Value.vStr s) d = d := by
  simp only [safe_float]
  split
  · rfl
  · rw [h]
    rfl

/-- C2: `transform_product` (sync.py:180-232) is a total function of the
raw record (it is defined for every modelled record shape — each field
access goes through a defaulting accessor, so the source's re-raise branch
is unreachable) and substitutes a field's default on any field-level
conversion failure instead of aborting the record: a price string the float
conversion rejects yields price 0, a sold-count string the int conversion
rejects yields 0, an array-valued rating yields 0.0; and concretely the
price `"$27.35"` normalizes to `27.35` while `"bogus"` normalizes to 0. -/
theorem c2_normalize_total_defaults :
    (∀ (product : RawRecord) (region now s : String),
      lookupD product "price" = Value.vStr s →
      parseFloat (pyCleanNumeric s) = none →
      (transform_product product region now).price = 0) ∧
    (∀ (product : RawRecord) (region now s : String),
      lookupD product "sold_count" = Value.vStr s →
      parseInt s = none →
      (transform_product product region now).sold_count = 0) ∧
    (∀ (product : RawRecord) (region now : String) (xs : List Value),
      lookupD product "product_rating" = Value.vList xs →
      (transform_product product region now).product_rating = 0) ∧
    (∀ region now : String,
      (transform_product [("price", Value.vStr "$27.35")] region now).price = 27.35) ∧
    (∀ region now : String,
      (transform_product [("price", Value.vStr "bogus")] region now).price = 0) := by
  refine ⟨?_, ?_, ?_, ?_, ?_⟩
  · intro product region now s hs hp
    rw [transform_price_proj, hs]
    exact safe_float_str_fail s 0 hp
  · intro product region now s hs hp
    rw [transform_sold_proj, hs]
    simp [safe_int, hp]
  · intro product region now xs hs
    have hproj : (transform_product product region now).product_rating
        = safe_float (lookupD product "product_rating") 0 := rfl
    rw [hproj, hs]
    rfl
  · intro region now
    rw [transform_price_proj]
    show safe_float (Value.vStr "$27.35") 0 = 27.35
    simp only [safe_float]
    rw [show pyCleanNumeric "$27.35" = ['2', '7', '.', '3', '5'] from by decide]
    rw [if_neg (by decide)]
    rw [show parseFloat ['2', '7', '.', '3', '5']
        = some ((1 : Rat) * ratTimesPow10 (((2735 : Nat) : Rat)) (-((2 : Nat) : Int)))
      from rfl]
    simp only [Option.getD_some]
    simp only [ratTimesPow10]
    norm_num
    rw [show Int.toNat 2 = 2 from rfl]
    norm_num
  · intro region now
    rw [transform_price_proj]
    show safe_float (Value.vStr "bogus") 0 = 0
    simp only [safe_float]
    rw [show pyCleanNumeric "bogus" = ['b', 'o', 'g', 'u', 's'] from by decide]
    rw [if_neg (by decide)]
    rw [show parseFloat ['b', 'o', 'g', 'u', 's'] = none from by decide]
    rfl

/-- Witness for C2: the defaulting branches applied at concrete records — a
price field holding the unparsable string `"12x"` yields price 0, a
sold-count field holding `"n/a"` yields 0, an array-valued rating yields
0. -/
theorem c2_normalize_total_defaults_witness :
    (transform_product [("price", Value.vStr "12x")] "US" "t").price = 0 ∧
    (transform_product [("sold_count", Value.vStr "n/a")] "US" "t").sold_count = 0 ∧
    (transform_product [("product_rating", Value.vList [])] "US" "t").product_rating = 0 := by
  refine ⟨c2_normalize_total_defaults.1 _ "US" "t" "12x" (by decide) (by decide),
    c2_normalize_total_defaults.2.1 _ "US" "t" "n/a" (by decide) (by decide),
    c2_normalize_total_defaults.2.2.1 _ "US" "t" [] (by decide)⟩

theorem pyTruthy_ne_none (v : Value) (h : pyTruthy v = true) : v ≠ Value.vNone := by
  intro he
  rw [he] at h
  simp [pyTruthy] at h

/-- C8: `transform_product` resolves aliased fields from the newer
upstream name whenever that name holds a truthy (populated) value, whatever
the legacy field holds: a truthy `crate` determines `commission_rate`
(sync.py:184-187, the legacy name being `commission_rate`), a truthy
`relate_author_count` determines the author count (sync.py:190, legacy
`author_count`), and a truthy `category_id` determines `category_l1_id`
(sync.py:193, legacy `category_l1_id`). -/
theorem c8_newer_alias_wins :
    (∀ (product : RawRecord) (region now : String),
      pyTruthy (lookupD product "crate") = true →
      (transform_product product region now).commission_rate
        = pyStr (lookupD product "crate")) ∧
    (∀ (product : RawRecord) (region now : String),
      pyTruthy (lookupD product "relate_author_count") = true →
      (transform_product product region now).relate_author_count
        = safe_int (lookupD product "relate_author_count") 0) ∧
    (∀ (product : RawRecord) (region now : String),
      pyTruthy (lookupD product "category_id") = true →
      (transform_product product region now).category_l1_id
        = safe_str (lookupD product "category_id") "") := by
  refine ⟨?_, ?_, ?_⟩
  · intro product region now h
    have hproj : (transform_product product region now).commission_rate
        = pyStr (if pyOr (lookupD product "crate")
            (pyOr (lookupD product "commission_rate") (Value.vStr "")) = Value.vNone
          then Value.vStr ""
          else pyOr (lookupD product "crate")
            (pyOr (lookupD product "commission_rate") (Value.vStr ""))) := rfl
    rw [hproj]
    rw [show pyOr (lookupD product "crate")
        (pyOr (lookupD product "commission_rate") (Value.vStr ""))
        = lookupD product "crate" from by simp [pyOr, h]]
    rw [if_neg (pyTruthy_ne_none _ h)]
  · intro product region now h
    have hproj : (transform_product product region now).relate_author_count
        = safe_int (pyOr (lookupD product "relate_author_count")
            (pyOr (lookupD product "author_count") (Value.vInt 0))) 0 := rfl
    rw [hproj]
    rw [show pyOr (lookupD product "relate_author_count")
        (pyOr (lookupD product "author_count") (Value.vInt 0))
        = lookupD product "relate_author_count" from by simp [pyOr, h]]
  · intro product region now h
    have hproj : (transform_product product region now).category_l1_id
        = safe_str (pyOr (lookupD product "category_id")
            (pyOr (lookupD product "category_l1_id") (Value.vStr ""))) "" := rfl
    rw [hproj]
    rw [show pyOr (lookupD product "category_id")
        (pyOr (lookupD product "category_l1_id") (Value.vStr ""))
        = lookupD product "category_id" from by simp [pyOr, h]]

/-- The C8 witness record: both aliases of each pair populated with
different values. -/
def rawC8 : RawRecord :=
  [("crate", Value.vStr "13%"), ("commission_rate", Value.vStr "10%"),
   ("relate_author_count", Value.vInt 7), ("author_count", Value.vInt 3),
   ("category_id", Value.vStr "14"), ("category_l1_id", Value.vStr "99")]

/-- Witness for C8: on a record populating both aliases of each pair with
different values, the newer alias determines each normalized field. -/
theorem c8_newer_alias_wins_witness :
    (transform_product rawC8 "US" "t").commission_rate = pyStr (lookupD rawC8 "crate") ∧
    (transform_product rawC8 "US" "t").relate_author_count
      = safe_int (lookupD rawC8 "relate_author_count") 0 ∧
    (transform_product rawC8 "US" "t").category_l1_id
      = safe_str (lookupD rawC8 "category_id") "" := by
  refine ⟨c8_newer_alias_wins.1 rawC8 "US" "t" (by decide),
    c8_newer_alias_wins.2.1 rawC8 "US" "t" (by decide),
    c8_newer_alias_wins.2.2 rawC8 "US" "t" (by decide)⟩

/-! ### Image rehosting (C5, C10) -/

set_option maxRecDepth 10000 in
/-- Sanity anchor for the MD5 model: the RFC 1321 test vector for `"abc"`. -/
theorem md5hex_rfc_vector : md5hex "abc" = "900150983cd24fb0d6963f7d28e17f72" := by
  decide

/-- C5: `get_image_filename` (sync.py:118-136) computes the destination
storage key deterministically — equal `(identity, sourceURL)` inputs give
equal keys — and the key is
`identity + "_" + first 8 hex digits of MD5(sourceURL) + "." + ext` where
`ext` is guessed from the URL path (one of png/webp/gif) and defaults to
`"jpg"` when unrecognized; and `process_product_image` (sync.py:288-320)
returns a URL already containing the destination marker `"supabase"`
unchanged, attempting neither download nor upload. -/
theorem c5_rehost_deterministic_key :
    (∀ (pid u1 u2 : String), u1 = u2 →
      get_image_filename pid u1 = get_image_filename pid u2) ∧
    (∀ pid url : String, ∃ ext : String,
      get_image_filename pid url
        = pid ++ "_" ++ (md5hex url).take 8 ++ "." ++ ext ∧
      (ext = "png" ∨ ext = "webp" ∨ ext = "gif" ∨ ext = "jpg")) ∧
    (∀ pid url : String,
      containsSub (pyLower (urlParsePath url)) ".png" = false →
      containsSub (pyLower (urlParsePath url)) ".webp" = false →
      containsSub (pyLower (urlParsePath url)) ".gif" = false →
      get_image_filename pid url = pid ++ "_" ++ (md5hex url).take 8 ++ "." ++ "jpg") ∧
    (∀ (env : ImgEnv) (product : CanonicalRecord),
      containsSub product.img "supabase" = true →
      process_product_image env product = (product.img, false, false)) := by
  refine ⟨?_, ?_, ?_, ?_⟩
  · intro pid u1 u2 h
    rw [h]
  · intro pid url
    simp only [get_image_filename]
    split
    · exact ⟨"png", rfl, Or.inl rfl⟩
    · split
      · exact ⟨"webp", rfl, Or.inr (Or.inl rfl)⟩
      · split
        · exact ⟨"gif", rfl, Or.inr (Or.inr (Or.inl rfl))⟩
        · exact ⟨"jpg", rfl, Or.inr (Or.inr (Or.inr rfl))⟩
  · intro pid url h1 h2 h3
    simp only [get_image_filename]
    rw [if_neg (by rw [h1]; exact Bool.false_ne_true),
      if_neg (by rw [h2]; exact Bool.false_ne_true),
      if_neg (by rw [h3]; exact Bool.false_ne_true)]
  · intro env product h
    simp only [process_product_image]
    by_cases hfirst : (product.img.isEmpty || product.product_id.isEmpty) = true
    · rw [if_pos hfirst]
    · rw [if_neg hfirst, if_pos h]

/-- An image environment whose download and upload oracles always fail —
usable wherever the oracles are irrelevant. -/
def envNone : ImgEnv :=
  { download := fun _ => none, upload := fun _ _ _ _ => none }

/-- The C5 witness record: a product whose image URL already lives in
Supabase storage. -/
def crecC5 : CanonicalRecord :=
  transform_product
    [("product_id", Value.vStr "42"),
     ("img", Value.vStr "https://xyz.supabase.co/storage/v1/object/public/a")]
    "US" "t"

/-- Witness for C5: determinism and the jpg default at a concrete
extension-less URL, and the no-op on a concrete already-rehosted record. -/
theorem c5_rehost_deterministic_key_witness :
    get_image_filename "42" "http://h/i.bin"
      = "42" ++ "_" ++ (md5hex "http://h/i.bin").take 8 ++ "." ++ "jpg" ∧
    process_product_image envNone crecC5 = (crecC5.img, false, false) := by
  refine ⟨c5_rehost_deterministic_key.2.2.1 "42" "http://h/i.bin"
      (by decide) (by decide) (by decide),
    c5_rehost_deterministic_key.2.2.2 envNone crecC5 (by decide)⟩

/-- C10: `process_product_image` (sync.py:294-298) with an empty
`product_id` returns the original image URL unchanged and attempts neither a
download nor an upload, whatever the URL is. -/
theorem c10_empty_identity_no_rehost :
    ∀ (env : ImgEnv) (product : CanonicalRecord),
      product.product_id = "" →
      process_product_image env product = (product.img, false, false) := by
  intro env product h
  simp only [process_product_image]
  rw [if_pos (by rw [h]; exact Bool.or_true _)]

/-- The C10 witness record: an empty identity but a non-empty image URL
outside the destination storage namespace. -/
def crecC10 : CanonicalRecord :=
  transform_product [("img", Value.vStr "http://cdn.example.com/p.png")] "US" "t"

/-- Witness for C10: the concrete record above is returned unchanged with no
download and no upload. -/
theorem c10_empty_identity_no_rehost_witness :
    crecC10.product_id = "" ∧ crecC10.img = "http://cdn.example.com/p.png" ∧
    process_product_image envNone crecC10 = (crecC10.img, false, false) := by
  exact ⟨by decide, by decide, c10_empty_identity_no_rehost envNone crecC10 (by decide)⟩

/-! ### Chunked upsert (C1) -/

theorem chunksOf100_nil (fuel : Nat) : chunksOf100 fuel [] = [] := by
  cases fuel <;> rfl

theorem chunksOf100_two (l : List CanonicalRecord) (fuel : Nat)
    (h1 : 100 < l.length) (h2 : l.length ≤ 200) (hf : l.length ≤ fuel) :
    chunksOf100 fuel l = [l.take 100, l.drop 100] := by
  match fuel, l with
  | 0, l => omega
  | f + 1, [] => simp at h1
  | f + 1, x :: xs =>
    show (x :: xs).take 100 :: chunksOf100 f ((x :: xs).drop 100) = _
    match hd : (x :: xs).drop 100, f with
    | [], _ =>
      have h0 := congrArg List.length hd
      rw [List.length_drop] at h0
      simp only [List.length_nil] at h0
      omega
    | y :: ys, 0 => omega
    | y :: ys, g + 1 =>
      show _ :: ((y :: ys).take 100 :: chunksOf100 g ((y :: ys).drop 100)) = _
      have hys : (y :: ys).length ≤ 100 := by
        have h0 := congrArg List.length hd
        rw [List.length_drop] at h0
        simp only [List.length_cons] at h0 h2 ⊢
        omega
      rw [List.take_of_length_le hys, List.drop_eq_nil_of_le hys, chunksOf100_nil]

theorem upsertLoop_second_chunk_fails (op : List CanonicalRecord → Except String Unit)
    (l : List CanonicalRecord) (e : String)
    (h1 : 100 < l.length) (h2 : l.length ≤ 200)
    (hok : op (l.take 100) = Except.ok ()) (herr : op (l.drop 100) = Except.error e) :
    upsertLoop op l = (Except.error e, 100, 2) := by
  have hlt : (l.take 100).length = 100 := by
    rw [List.length_take]
    omega
  unfold upsertLoop
  rw [chunksOf100_two l l.length h1 h2 le_rfl]
  simp [upsertChunks, hok, herr, hlt]

/-- C1, amended: When `upsert_products` splits its records into chunks
of 100 (sync.py:388-406) and the write of a later chunk fails, the failure
is re-raised to the caller carrying only the error — the count persisted by
the earlier chunks is *not* reported with it (the surfaced result is
`Except.error e`, whose error branch holds no count; the caller records the
error and adds 0, see the counterexample) — while the records of the
already-committed earlier chunks stay persisted (the committed count is
100 and no rollback operation exists) and no further chunk is written
(exactly 2 writes are issued for a failing second chunk of 101–200
records). -/
theorem c1_chunk_failure_error_without_count :
    ∀ (op : List CanonicalRecord → Except String Unit) (l : List CanonicalRecord) (e : String),
      100 < l.length → l.length ≤ 200 →
      op (l.take 100) = Except.ok () → op (l.drop 100) = Except.error e →
      upsertLoop op l = (Except.error e, 100, 2) ∧
      ∀ n : Nat, (upsertLoop op l).1 ≠ Except.ok n := by
  intro op l e h1 h2 hok herr
  have h := upsertLoop_second_chunk_fails op l e h1 h2 hok herr
  refine ⟨h, ?_⟩
  intro n hn
  rw [h] at hn
  simp at hn

/-- Raw record number `i` of the C1 scenario, with a distinct two-letter
identity. -/
def rawP (i : Nat) : RawRecord :=
  [("product_id",
    Value.vStr (String.mk [Char.ofNat (65 + i / 26), Char.ofNat (65 + i % 26)]))]

/-- The 150 raw records of the C1 scenario. -/
def raws150 : List RawRecord := (List.range 150).map rawP

/-- The 150 transformed records of the C1 scenario. -/
def l150 : List CanonicalRecord :=
  raws150.map (fun p => transform_product p "US" "t")

/-- Chunk-write oracle of the C1 scenario: a full chunk of 100 succeeds, the
trailing chunk of 50 fails. -/
def opC1 : List CanonicalRecord → Except String Unit :=
  fun batch => if batch.length = 100 then Except.ok () else Except.error "boom"

/-- Fetch oracle of the C1 scenario: every fetch returns the 150 records. -/
def fetchC1 : String → String → Nat → Except String (List RawRecord) :=
  fun _ _ _ => Except.ok raws150

set_option maxRecDepth 100000 in
/-- Witness for C1 (amended): the concrete 150-record scenario — two chunk
writes, the error surfaced without a count, 100 records committed. -/
theorem c1_chunk_failure_error_without_count_witness :
    100 < l150.length ∧ l150.length ≤ 200 ∧
    opC1 (l150.take 100) = Except.ok () ∧
    opC1 (l150.drop 100) = Except.error "boom" ∧
    upsertLoop opC1 l150 = (Except.error "boom", 100, 2) := by
  refine ⟨by decide, by decide, by rfl, by rfl, ?_⟩
  exact (c1_chunk_failure_error_without_count opC1 l150 "boom"
    (by decide) (by decide) (by rfl) (by rfl)).1

set_option maxRecDepth 100000 in
/-- Counterexample to C1 as stated: in the concrete 150-record scenario with
a failing second chunk, the count reported to the caller (`run_sync`'s
aggregated total) is 0, not 100 — `upsert_products` re-raises without
returning `total_upserted`, so the 100 persisted records are invisible in
the reported count; the error is recorded in the error list. -/
theorem c1_counterexample :
    run_sync ["US"] ["14"] 500 fetchC1 opC1 envNone "t"
      = (0, ["Error upserting US: boom"]) ∧
    (run_sync ["US"] ["14"] 500 fetchC1 opC1 envNone "t").1 ≠ 100 := by
  constructor
  · decide
  · decide

/-! ### Orchestrator error isolation (C7) -/

/-- One region's contribution to `run_sync`'s aggregate: zero for a blank
region entry, otherwise the count and error list its own processing
produces. -/
def regionContrib (cats : List String) (limitPerRegion : Nat)
    (fetchRC : String → String → Nat → Except String (List RawRecord))
    (op : List CanonicalRecord → Except String Unit) (env : ImgEnv) (now : String)
    (region : String) : Nat × List String :=
  if (pyStrip region).isEmpty then (0, [])
  else processRegion cats limitPerRegion fetchRC op env now (pyStrip region)

theorem run_sync_foldl (cats : List String) (limitPerRegion : Nat)
    (fetchRC : String → String → Nat → Except String (List RawRecord))
    (op : List CanonicalRecord → Except String Unit) (env : ImgEnv) (now : String) :
    ∀ (regions : List String) (acc : Nat × List String),
      regions.foldl
        (fun acc region =>
          let region := pyStrip region
          if region.isEmpty then acc
          else
            let pr := processRegion cats limitPerRegion fetchRC op env now region
            (acc.1 + pr.1, acc.2 ++ pr.2)) acc
      = (acc.1 + ((regions.map (fun r =>
            (regionContrib cats limitPerRegion fetchRC op env now r).1)).sum),
         acc.2 ++ ((regions.map (fun r =>
            (regionContrib cats limitPerRegion fetchRC op env now r).2)).flatten)) := by
  intro regions
  induction regions with
  | nil => intro acc; simp
  | cons r rs ih =>
    intro acc
    rw [List.foldl_cons]
    dsimp only
    by_cases hr : (pyStrip r).isEmpty = true
    · rw [if_pos hr, ih acc]
      simp [regionContrib, hr]
    · rw [if_neg hr, ih _]
      simp [regionContrib, hr, Nat.add_assoc, List.append_assoc]

/-- C7: `run_sync` (sync.py:413-504) processes every configured region
independently: its aggregate result is exactly the sum of each region's own
count and the concatenation of each region's own error list, where a
region's contribution is a function of that region's fetch and upsert
outcomes alone — an exception in one region's fetching or upserting is
recorded as that region's errors and cannot change, skip, or abort any
later region's contribution; and every error a region records appears in
the final error list. -/
theorem c7_partition_isolation :
    ∀ (regions cats : List String) (limitPerRegion : Nat)
      (fetchRC : String → String → Nat → Except String (List RawRecord))
      (op : List CanonicalRecord → Except String Unit) (env : ImgEnv) (now : String),
      run_sync regions cats limitPerRegion fetchRC op env now
        = ((regions.map (fun r =>
              (regionContrib cats limitPerRegion fetchRC op env now r).1)).sum,
           (regions.map (fun r =>
              (regionContrib cats limitPerRegion fetchRC op env now r).2)).flatten) ∧
      (∀ r ∈ regions,
        ∀ e ∈ (regionContrib cats limitPerRegion fetchRC op env now r).2,
          e ∈ (run_sync regions cats limitPerRegion fetchRC op env now).2) := by
  intro regions cats limitPerRegion fetchRC op env now
  have h := run_sync_foldl cats limitPerRegion fetchRC op env now regions (0, [])
  have hmain : run_sync regions cats limitPerRegion fetchRC op env now
      = ((regions.map (fun r =>
            (regionContrib cats limitPerRegion fetchRC op env now r).1)).sum,
         (regions.map (fun r =>
            (regionContrib cats limitPerRegion fetchRC op env now r).2)).flatten) := by
    unfold run_sync
    rw [h]
    simp
  refine ⟨hmain, ?_⟩
  intro r hr e he
  rw [hmain]
  exact List.mem_flatten.mpr
    ⟨(regionContrib cats limitPerRegion fetchRC op env now r).2,
     List.mem_map_of_mem _ hr, he⟩

/-- Fetch oracle of the C7 witness: every fetch for region `"A"` raises,
fetches for other regions succeed. -/
def fetchC7 : String → String → Nat → Except String (List RawRecord) :=
  fun r _ _ => if r = "A" then Except.error "down" else Except.ok [exR1]

/-- Chunk-write oracle of the C7 witness: every write succeeds. -/
def opOk : List CanonicalRecord → Except String Unit :=
  fun _ => Except.ok ()

/-- Witness for C7: with regions `["A", "B"]` where every fetch of region
`"A"` raises, `"A"`'s recorded fetch error appears in the final error list
while region `"B"` still contributes its persisted record to the total. -/
theorem c7_partition_isolation_witness :
    "Error fetching A/14: down"
      ∈ (run_sync ["A", "B"] ["14"] 500 fetchC7 opOk envNone "t").2 ∧
    run_sync ["A", "B"] ["14"] 500 fetchC7 opOk envNone "t"
      = (1, ["Error fetching A/14: down"]) := by
  constructor
  · exact (c7_partition_isolation ["A", "B"] ["14"] 500 fetchC7 opOk envNone "t").2
      "A" (by decide) "Error fetching A/14: down" (by decide)
  · decide

end FastmossSync
